import Mathlib

/-!
A shallow embedding of the in-memory graph store of `src/app.py`
(class `GraphData` and the stats handler `get_graph_stats`).

Python records (`Dict[str, Any]`) are modelled as association lists
`List (String × Value)` in insertion order, mirroring CPython dict
semantics: assignment to an existing key overwrites the value in place,
assignment to a fresh key appends, and deletion removes the key while
preserving the order of the rest.  The Python value universe is cut down
to the constructors the store actually produces and the claims need:
integers (standing in for the numeric ids/durations/costs), strings,
`None`, and the empty dict `{}` (the only dict value the store creates,
for the `metadata` placeholder).  Python `==` on these values is
decidable equality on `Value` (distinct constructors compare unequal,
as in Python for `int`/`str`/`dict`/`None`).
-/

set_option autoImplicit false

inductive Value where
  | int : Int → Value
  | str : String → Value
  | none : Value
  | emptyDict : Value
deriving DecidableEq, Repr

abbrev PyDict := List (String × Value)

/-- First-occurrence association lookup, the shape of Python `d.get(k)`;
the key type is `String` for record dicts and `Nat` for the id-keyed
`nodes_dict` / `edges_dict`. -/
def lookupA {α β : Type} [DecidableEq α] (l : List (α × β)) (k : α) : Option β :=
  match l with
  | [] => Option.none
  | (k', v) :: t => if k' = k then some v else lookupA t k

/-- Python `k in d`. -/
def containsKey {α β : Type} [DecidableEq α] (l : List (α × β)) (k : α) : Bool :=
  (lookupA l k).isSome

/-- Python `d[k] = v`: overwrite in place if the key exists, else append. -/
def setA {α β : Type} [DecidableEq α] (l : List (α × β)) (k : α) (v : β) :
    List (α × β) :=
  match l with
  | [] => [(k, v)]
  | (k', v') :: t => if k' = k then (k, v) :: t else (k', v') :: setA t k v

/-- Python `del d[k]`: drop the key, keep the order of the rest. -/
def eraseA {α β : Type} [DecidableEq α] (l : List (α × β)) (k : α) :
    List (α × β) :=
  match l with
  | [] => []
  | (k', v') :: t => if k' = k then t else (k', v') :: eraseA t k

/-- Python `d.update(u)`: set each key of `u` in turn. -/
def dictUpdate (d : PyDict) (u : PyDict) : PyDict :=
  u.foldl (fun acc p => setA acc p.1 p.2) d

/-- Python `d[k]` where the store guarantees the key (e.g. `edge['from']`);
a missing key, which would raise `KeyError` in Python, reads as `Value.none`
here; states built by the store's own operations always carry the key. -/
def getD (d : PyDict) (k : String) : Value :=
  (lookupA d k).getD Value.none

/-- The keys of a dict are distinct, as they are in any real Python dict
(an update map parsed from JSON, or the id-keyed stores). -/
abbrev NoDupKeys {α β : Type} (l : List (α × β)) : Prop :=
  (l.map Prod.fst).Nodup

/-- The store state of `GraphData.__init__` (src/app.py:22). -/
structure GraphData where
  nodes_dict : List (Nat × PyDict)
  edges_dict : List (Nat × PyDict)
  node_counter : Nat
  edge_counter : Nat
deriving DecidableEq, Repr

namespace GraphData

/-- Embeds `GraphData.__init__`: empty maps, both counters 1. -/
def init : GraphData := ⟨[], [], 1, 1⟩

/-- Embeds `GraphData.get_nodes_list` (src/app.py:36). -/
def get_nodes_list (g : GraphData) : List PyDict :=
  g.nodes_dict.map Prod.snd

/-- Embeds `GraphData.get_edges_list` (src/app.py:45). -/
def get_edges_list (g : GraphData) : List PyDict :=
  g.edges_dict.map Prod.snd

/-- Embeds `GraphData.add_node` (src/app.py:54): build the property dict,
store it under `node_counter`, bump the counter, return the dict. -/
def add_node (g : GraphData) (name : String) (x y : Int) : PyDict × GraphData :=
  let node_properties : PyDict :=
    [("id", Value.int g.node_counter), ("name", Value.str name),
     ("x", Value.int x), ("y", Value.int y),
     ("created_at", Value.none), ("metadata", Value.emptyDict)]
  (node_properties,
   { g with nodes_dict := setA g.nodes_dict g.node_counter node_properties,
            node_counter := g.node_counter + 1 })

/-- Embeds `GraphData.update_node` (src/app.py:80): merge `updates` into the
record when the id exists, else return `None` and leave the store alone. -/
def update_node (g : GraphData) (node_id : Nat) (updates : PyDict) :
    Option PyDict × GraphData :=
  match lookupA g.nodes_dict node_id with
  | some r =>
      let r' := dictUpdate r updates
      (some r', { g with nodes_dict := setA g.nodes_dict node_id r' })
  | Option.none => (Option.none, g)

/-- Python `edge['from'] == node_id or edge['to'] == node_id` from
`GraphData.delete_node`. -/
def incident (e : PyDict) (node_id : Nat) : Bool :=
  getD e "from" == Value.int node_id || getD e "to" == Value.int node_id

/-- Embeds `GraphData.delete_node` (src/app.py:96): drop the node, then drop every
edge whose `from` or `to` equals the id (deleting the collected ids in
order is the same as filtering them out of the insertion-ordered dict). -/
def delete_node (g : GraphData) (node_id : Nat) : Bool × GraphData :=
  if containsKey g.nodes_dict node_id then
    (true,
     { g with nodes_dict := eraseA g.nodes_dict node_id,
              edges_dict := g.edges_dict.filter (fun p => ! incident p.2 node_id) })
  else
    (false, g)

/-- Embeds `GraphData.add_edge` (src/app.py:122): `None` unless both endpoints
are keys of `nodes_dict`; otherwise build the edge dict (with
`weight = duration`), store it under `edge_counter`, bump the counter. -/
def add_edge (g : GraphData) (from_node to_node : Nat) (duration cost : Int)
    (prerequisites postrequisites : String) : Option PyDict × GraphData :=
  if containsKey g.nodes_dict from_node ∧ containsKey g.nodes_dict to_node then
    let edge_properties : PyDict :=
      [("id", Value.int g.edge_counter), ("from", Value.int from_node),
       ("to", Value.int to_node), ("duration", Value.int duration),
       ("cost", Value.int cost), ("prerequisites", Value.str prerequisites),
       ("postrequisites", Value.str postrequisites),
       ("weight", Value.int duration), ("metadata", Value.emptyDict)]
    (some edge_properties,
     { g with edges_dict := setA g.edges_dict g.edge_counter edge_properties,
              edge_counter := g.edge_counter + 1 })
  else
    (Option.none, g)

/-- Embeds `GraphData.update_edge` (src/app.py:160): merge, then if `updates`
carries `duration`, overwrite `weight` with that value. -/
def update_edge (g : GraphData) (edge_id : Nat) (updates : PyDict) :
    Option PyDict × GraphData :=
  match lookupA g.edges_dict edge_id with
  | some r =>
      let r1 := dictUpdate r updates
      let r2 := match lookupA updates "duration" with
        | some d => setA r1 "weight" d
        | Option.none => r1
      (some r2, { g with edges_dict := setA g.edges_dict edge_id r2 })
  | Option.none => (Option.none, g)

/-- Embeds `GraphData.delete_edge` (src/app.py:179). -/
def delete_edge (g : GraphData) (edge_id : Nat) : Bool × GraphData :=
  if containsKey g.edges_dict edge_id then
    (true, { g with edges_dict := eraseA g.edges_dict edge_id })
  else
    (false, g)

/-- Embeds `GraphData.get_node_by_id` (src/app.py:194). -/
def get_node_by_id (g : GraphData) (node_id : Nat) : Option PyDict :=
  lookupA g.nodes_dict node_id

/-- Embeds `GraphData.get_edge_by_id` (src/app.py:206). -/
def get_edge_by_id (g : GraphData) (edge_id : Nat) : Option PyDict :=
  lookupA g.edges_dict edge_id

/-- Embeds `GraphData.clear_all` (src/app.py:218): empty both dicts, reset both
counters to 1. -/
def clear_all (_g : GraphData) : GraphData := ⟨[], [], 1, 1⟩

end GraphData

/-- Python numeric read used by the stats sums: `edge.get('cost', 0)`
defaults a missing key to 0; a non-numeric stored value, on which Python
`sum` would raise `TypeError`, is outside the numeric states this models
and reads as 0. -/
def Value.toIntD : Value → Int
  | .int n => n
  | _ => 0

/-- The record returned by the handler `get_graph_stats` (src/app.py:444). -/
structure Stats where
  total_nodes : Nat
  total_edges : Nat
  next_node_id : Nat
  next_edge_id : Nat
  total_cost : Int
  total_duration : Int
deriving DecidableEq, Repr

/-- Embeds the handler `get_graph_stats` (src/app.py:444): sizes of the two dicts, the two
counters, and the sums of `edge.get('cost', 0)` / `edge.get('duration', 0)`
over the edge dict's values. -/
def get_graph_stats (g : GraphData) : Stats :=
  { total_nodes := g.nodes_dict.length,
    total_edges := g.edges_dict.length,
    next_node_id := g.node_counter,
    next_edge_id := g.edge_counter,
    total_cost := (g.edges_dict.map (fun p => (getD p.2 "cost").toIntD)).sum,
    total_duration := (g.edges_dict.map (fun p => (getD p.2 "duration").toIntD)).sum }

/-!
Sequences of store operations, for the claims quantifying over every
reachable state or every call history.  Each constructor carries exactly
the arguments of the corresponding `GraphData` method.
-/

inductive Op where
  | addNode (name : String) (x y : Int)
  | updateNode (id : Nat) (u : PyDict)
  | deleteNode (id : Nat)
  | addEdge (from_node to_node : Nat) (duration cost : Int) (pre post : String)
  | updateEdge (id : Nat) (u : PyDict)
  | deleteEdge (id : Nat)
  | clearAll
deriving DecidableEq, Repr

/-- State transition of one store call (the returned value is dropped). -/
def applyOp (g : GraphData) : Op → GraphData
  | .addNode name x y => (g.add_node name x y).2
  | .updateNode id u => (g.update_node id u).2
  | .deleteNode id => (g.delete_node id).2
  | .addEdge f t d c pre post => (g.add_edge f t d c pre post).2
  | .updateEdge id u => (g.update_edge id u).2
  | .deleteEdge id => (g.delete_edge id).2
  | .clearAll => g.clear_all

/-- The store state after a call history, starting from `__init__`. -/
def runOps (ops : List Op) : GraphData :=
  ops.foldl applyOp GraphData.init

/-- The ids assigned by the `add_node` calls of a history, in call order:
each is the `id` field of the record `add_node` returns at that point. -/
def nodeIdTrace (g : GraphData) : List Op → List Int
  | [] => []
  | Op.addNode name x y :: t =>
      (getD (g.add_node name x y).1 "id").toIntD ::
        nodeIdTrace (g.add_node name x y).2 t
  | o :: t => nodeIdTrace (applyOp g o) t

/-- How many `add_node` calls a history makes. -/
def countAddNode : List Op → Nat
  | [] => 0
  | Op.addNode _ _ _ :: t => countAddNode t + 1
  | _ :: t => countAddNode t

/-- Every stored id is strictly below its counter. -/
def StoreInv (g : GraphData) : Prop :=
  (∀ p ∈ g.nodes_dict, p.1 < g.node_counter) ∧
  (∀ p ∈ g.edges_dict, p.1 < g.edge_counter)

/-!
Specification-side definitions, written from the spec's words, to compare
with the embedded code, plus the spec's worked example store.
-/

/-- Sum of the `cost` field over all edges of the store (the spec's
`totalCost: sum of all edges' cost`). -/
def specTotalCost (g : GraphData) : Int :=
  (g.get_edges_list.map (fun e => (getD e "cost").toIntD)).sum

/-- Sum of the `duration` field over all edges of the store (the spec's
`totalDuration: sum of all edges' duration`). -/
def specTotalDuration (g : GraphData) : Int :=
  (g.get_edges_list.map (fun e => (getD e "duration").toIntD)).sum

/-- The spec's worked example: add node "A", add node "B", add edge
1→2 with duration 3 and cost 10. -/
def exampleStore : GraphData :=
  (((GraphData.init.add_node "A" 100 100).2.add_node
      "B" 100 100).2.add_edge 1 2 3 10 "" "").2

/-- The record of node 1 ("A") in the worked example store. -/
def nodeRecA : PyDict :=
  [("id", Value.int 1), ("name", Value.str "A"), ("x", Value.int 100),
   ("y", Value.int 100), ("created_at", Value.none),
   ("metadata", Value.emptyDict)]

/-! Association-map lemmas. -/

theorem lookupA_setA {α β : Type} [DecidableEq α] (l : List (α × β)) (k : α)
    (v : β) (k' : α) :
    lookupA (setA l k v) k' = if k = k' then some v else lookupA l k' := by
  induction l with
  | nil => simp [setA, lookupA]
  | cons p t ih =>
      obtain ⟨a, b⟩ := p
      by_cases hak : a = k
      · subst hak
        by_cases hk' : a = k' <;> simp [setA, lookupA, hk']
      · by_cases hk' : a = k'
        · subst hk'
          simp [setA, lookupA, hak, Ne.symm hak]
        · simp [setA, lookupA, hak, hk', ih]

theorem lookupA_eraseA_ne {α β : Type} [DecidableEq α] (l : List (α × β))
    (k k' : α) (h : k' ≠ k) : lookupA (eraseA l k) k' = lookupA l k' := by
  induction l with
  | nil => simp [eraseA]
  | cons p t ih =>
      obtain ⟨a, b⟩ := p
      by_cases hak : a = k
      · subst hak
        simp [eraseA, lookupA, Ne.symm h]
      · by_cases hk' : a = k'
        · subst hk'
          simp [eraseA, lookupA, hak]
        · simp [eraseA, lookupA, hak, hk', ih]

theorem lookupA_eq_none_of_not_mem {α β : Type} [DecidableEq α]
    (l : List (α × β)) (k : α) (h : k ∉ l.map Prod.fst) : lookupA l k = Option.none := by
  induction l with
  | nil => rfl
  | cons p t ih =>
      simp only [List.map_cons, List.mem_cons, not_or] at h
      obtain ⟨a, b⟩ := p
      have h1 : ¬ a = k := fun hh => h.1 hh.symm
      simp only [lookupA]
      rw [if_neg h1]
      exact ih h.2

theorem lookupA_eraseA_self {α β : Type} [DecidableEq α] (l : List (α × β))
    (k : α) (h : NoDupKeys l) : lookupA (eraseA l k) k = Option.none := by
  induction l with
  | nil => rfl
  | cons p t ih =>
      obtain ⟨a, b⟩ := p
      have hnd : a ∉ t.map Prod.fst ∧ NoDupKeys t := by
        simpa [NoDupKeys] using h
      by_cases hak : a = k
      · subst hak
        simpa [eraseA] using lookupA_eq_none_of_not_mem t a hnd.1
      · simpa [eraseA, lookupA, hak] using ih hnd.2

theorem lookupA_dictUpdate_of_not_mem (d u : PyDict) (k : String)
    (h : lookupA u k = Option.none) :
    lookupA (dictUpdate d u) k = lookupA d k := by
  induction u generalizing d with
  | nil => rfl
  | cons p t ih =>
      obtain ⟨a, b⟩ := p
      by_cases hak : a = k
      · simp [lookupA, hak] at h
      · simp only [lookupA, if_neg hak] at h
        have hstep : dictUpdate d ((a, b) :: t) = dictUpdate (setA d a b) t := rfl
        rw [hstep, ih (setA d a b) h, lookupA_setA, if_neg hak]

theorem lookupA_dictUpdate_of_mem (d u : PyDict) (k : String) (v : Value)
    (hnd : NoDupKeys u) (h : lookupA u k = some v) :
    lookupA (dictUpdate d u) k = some v := by
  induction u generalizing d with
  | nil => cases h
  | cons p t ih =>
      obtain ⟨a, b⟩ := p
      have hnd2 : a ∉ t.map Prod.fst ∧ NoDupKeys t := by
        simpa [NoDupKeys] using hnd
      have hstep : dictUpdate d ((a, b) :: t) = dictUpdate (setA d a b) t := rfl
      by_cases hak : a = k
      · subst hak
        have hbv : b = v := by simpa [lookupA] using h
        subst hbv
        have ht : lookupA t a = (Option.none : Option Value) :=
          lookupA_eq_none_of_not_mem t a hnd2.1
        rw [hstep, lookupA_dictUpdate_of_not_mem _ _ _ ht, lookupA_setA,
          if_pos rfl]
      · simp only [lookupA, if_neg hak] at h
        rw [hstep]
        exact ih (setA d a b) hnd2.2 h

theorem mem_setA {α β : Type} [DecidableEq α] (l : List (α × β)) (k : α)
    (v : β) (p : α × β) : p ∈ setA l k v → p = (k, v) ∨ p ∈ l := by
  induction l with
  | nil => intro h; simpa [setA] using h
  | cons q t ih =>
      intro h
      obtain ⟨a, b⟩ := q
      by_cases hak : a = k
      · simp only [setA, if_pos hak, List.mem_cons] at h
        rcases h with h | h
        · exact Or.inl h
        · exact Or.inr (List.mem_cons_of_mem _ h)
      · simp only [setA, if_neg hak, List.mem_cons] at h
        rcases h with h | h
        · exact Or.inr (h ▸ List.mem_cons_self _ _)
        · rcases ih h with h' | h'
          · exact Or.inl h'
          · exact Or.inr (List.mem_cons_of_mem _ h')

theorem mem_eraseA {α β : Type} [DecidableEq α] (l : List (α × β)) (k : α)
    (p : α × β) : p ∈ eraseA l k → p ∈ l := by
  induction l with
  | nil => intro h; exact h
  | cons q t ih =>
      intro h
      obtain ⟨a, b⟩ := q
      by_cases hak : a = k
      · simp only [eraseA, if_pos hak] at h
        exact List.mem_cons_of_mem _ h
      · simp only [eraseA, if_neg hak, List.mem_cons] at h
        rcases h with h | h
        · exact h ▸ List.mem_cons_self _ _
        · exact List.mem_cons_of_mem _ (ih h)

theorem lookupA_mem {α β : Type} [DecidableEq α] (l : List (α × β)) (k : α)
    (v : β) : lookupA l k = some v → (k, v) ∈ l := by
  induction l with
  | nil => intro h; cases h
  | cons q t ih =>
      intro h
      obtain ⟨a, b⟩ := q
      by_cases hak : a = k
      · subst hak
        have hbv : b = v := by simpa [lookupA] using h
        subst hbv
        exact List.mem_cons_self _ _
      · simp only [lookupA, if_neg hak] at h
        exact List.mem_cons_of_mem _ (ih h)

/-! Counter evolution across calls. -/

theorem node_counter_preserved (g : GraphData) (o : Op)
    (hadd : ∀ name x y, o ≠ Op.addNode name x y) (hclr : o ≠ Op.clearAll) :
    (applyOp g o).node_counter = g.node_counter := by
  cases o with
  | addNode name x y => exact absurd rfl (hadd name x y)
  | clearAll => exact absurd rfl hclr
  | updateNode id u =>
      simp only [applyOp, GraphData.update_node]
      split <;> rfl
  | deleteNode id =>
      simp only [applyOp, GraphData.delete_node]
      split <;> rfl
  | addEdge f t d c pre post =>
      simp only [applyOp, GraphData.add_edge]
      split <;> rfl
  | updateEdge id u =>
      simp only [applyOp, GraphData.update_edge]
      split <;> rfl
  | deleteEdge id =>
      simp only [applyOp, GraphData.delete_edge]
      split <;> rfl

theorem nodeIdTrace_cons_other (g : GraphData) (o : Op) (t : List Op)
    (hadd : ∀ name x y, o ≠ Op.addNode name x y) :
    nodeIdTrace g (o :: t) = nodeIdTrace (applyOp g o) t := by
  cases o with
  | addNode name x y => exact absurd rfl (hadd name x y)
  | updateNode id u => rfl
  | deleteNode id => rfl
  | addEdge f tt d c pre post => rfl
  | updateEdge id u => rfl
  | deleteEdge id => rfl
  | clearAll => rfl

theorem countAddNode_cons_other (o : Op) (t : List Op)
    (hadd : ∀ name x y, o ≠ Op.addNode name x y) :
    countAddNode (o :: t) = countAddNode t := by
  cases o with
  | addNode name x y => exact absurd rfl (hadd name x y)
  | updateNode id u => rfl
  | deleteNode id => rfl
  | addEdge f tt d c pre post => rfl
  | updateEdge id u => rfl
  | deleteEdge id => rfl
  | clearAll => rfl

theorem nodeIdTrace_eq (ops : List Op) :
    ∀ g : GraphData, (∀ o ∈ ops, o ≠ Op.clearAll) →
      nodeIdTrace g ops
        = (List.range' g.node_counter (countAddNode ops)).map Int.ofNat := by
  induction ops with
  | nil => intro g _; rfl
  | cons o t ih =>
      intro g h
      have ht : ∀ o' ∈ t, o' ≠ Op.clearAll := fun o' ho' =>
        h o' (List.mem_cons_of_mem _ ho')
      by_cases ho : ∃ name x y, o = Op.addNode name x y
      · obtain ⟨name, x, y, rfl⟩ := ho
        show (getD (GraphData.add_node g name x y).1 "id").toIntD ::
            nodeIdTrace (GraphData.add_node g name x y).2 t
          = (List.range' g.node_counter (countAddNode t + 1)).map Int.ofNat
        rw [List.range'_succ, List.map_cons]
        congr 1
        exact ih _ ht
      · push_neg at ho
        have hc := node_counter_preserved g o ho (h o (List.mem_cons_self _ _))
        have htr := ih (applyOp g o) ht
        rw [hc] at htr
        rw [nodeIdTrace_cons_other g o t ho, countAddNode_cons_other o t ho]
        exact htr

/-! The reachable-state invariant behind fresh id assignment. -/

theorem storeInv_init : StoreInv GraphData.init :=
  ⟨fun _ hp => absurd hp (List.not_mem_nil _), fun _ hp => absurd hp (List.not_mem_nil _)⟩

theorem storeInv_applyOp (g : GraphData) (o : Op) (h : StoreInv g) :
    StoreInv (applyOp g o) := by
  obtain ⟨hn, he⟩ := h
  cases o with
  | addNode name x y =>
      simp only [applyOp, GraphData.add_node]
      refine ⟨fun p hp => ?_, fun p hp => he p hp⟩
      rcases mem_setA _ _ _ _ hp with h' | h'
      · rw [h']
        exact Nat.lt_succ_self _
      · exact Nat.lt_succ_of_lt (hn p h')
  | updateNode id u =>
      simp only [applyOp, GraphData.update_node]
      cases hl : lookupA g.nodes_dict id with
      | none => exact ⟨hn, he⟩
      | some r =>
          refine ⟨fun p hp => ?_, he⟩
          rcases mem_setA _ _ _ _ hp with h' | h'
          · have := hn _ (lookupA_mem _ _ _ hl)
            simpa [h'] using this
          · exact hn p h'
  | deleteNode id =>
      simp only [applyOp, GraphData.delete_node]
      by_cases hc : containsKey g.nodes_dict id = true
      · simp only [hc, if_true]
        exact ⟨fun p hp => hn p (mem_eraseA _ _ _ hp),
          fun p hp => he p (List.mem_of_mem_filter hp)⟩
      · simp only [Bool.not_eq_true] at hc
        simp only [hc, Bool.false_eq_true, if_false]
        exact ⟨hn, he⟩
  | addEdge f t d c pre post =>
      simp only [applyOp, GraphData.add_edge]
      by_cases hc : containsKey g.nodes_dict f = true ∧ containsKey g.nodes_dict t = true
      · simp only [hc.1, hc.2, and_self, if_true]
        refine ⟨hn, fun p hp => ?_⟩
        rcases mem_setA _ _ _ _ hp with h' | h'
        · rw [h']
          exact Nat.lt_succ_self _
        · exact Nat.lt_succ_of_lt (he p h')
      · rw [if_neg hc]
        exact ⟨hn, he⟩
  | updateEdge id u =>
      simp only [applyOp, GraphData.update_edge]
      cases hl : lookupA g.edges_dict id with
      | none => exact ⟨hn, he⟩
      | some r =>
          refine ⟨hn, fun p hp => ?_⟩
          rcases mem_setA _ _ _ _ hp with h' | h'
          · have := he _ (lookupA_mem _ _ _ hl)
            simpa [h'] using this
          · exact he p h'
  | deleteEdge id =>
      simp only [applyOp, GraphData.delete_edge]
      by_cases hc : containsKey g.edges_dict id = true
      · simp only [hc, if_true]
        exact ⟨hn, fun p hp => he p (mem_eraseA _ _ _ hp)⟩
      · simp only [Bool.not_eq_true] at hc
        simp only [hc, Bool.false_eq_true, if_false]
        exact ⟨hn, he⟩
  | clearAll =>
      exact ⟨fun _ hp => absurd hp (List.not_mem_nil _),
        fun _ hp => absurd hp (List.not_mem_nil _)⟩

theorem storeInv_runOps (ops : List Op) : StoreInv (runOps ops) := by
  suffices h : ∀ g : GraphData, StoreInv g → StoreInv (ops.foldl applyOp g) from
    h GraphData.init storeInv_init
  induction ops with
  | nil => exact fun g hg => hg
  | cons o t ih => exact fun g hg => ih (applyOp g o) (storeInv_applyOp g o hg)

/-- Claim C1: deleting a node that is present returns `True`, leaves no
edge whose `from` or `to` field equals the deleted id, and keeps exactly
the non-incident edges unchanged (the edge dict becomes its own filter
to non-incident entries). -/
theorem claim_C1_delete_node_cascade (g : GraphData) (id : Nat)
    (h : containsKey g.nodes_dict id = true) :
    (g.delete_node id).1 = true ∧
    (g.delete_node id).2.edges_dict
      = g.edges_dict.filter (fun p => ! GraphData.incident p.2 id) ∧
    (∀ p ∈ (g.delete_node id).2.edges_dict,
        getD p.2 "from" ≠ Value.int id ∧ getD p.2 "to" ≠ Value.int id) := by
  have hd : g.delete_node id
      = (true, { g with nodes_dict := eraseA g.nodes_dict id,
                        edges_dict := g.edges_dict.filter
                          (fun p => ! GraphData.incident p.2 id) }) := by
    simp only [GraphData.delete_node]
    rw [if_pos h]
  refine ⟨by rw [hd], by rw [hd], ?_⟩
  intro p hp
  rw [hd] at hp
  have hni : GraphData.incident p.2 id = false := by
    simpa using List.of_mem_filter hp
  constructor <;> intro hEq <;> simp [GraphData.incident, hEq] at hni

/-- Witness for C1 on the spec's worked example store. -/
theorem claim_C1_delete_node_cascade_witness :
    containsKey exampleStore.nodes_dict 1 = true ∧
    (exampleStore.delete_node 1).1 = true ∧
    (exampleStore.delete_node 1).2.edges_dict = [] :=
  ⟨by decide,
   (claim_C1_delete_node_cascade exampleStore 1 (by decide)).1,
   ((claim_C1_delete_node_cascade exampleStore 1 (by decide)).2.1).trans
     (by decide)⟩

/-- Claim C2: `add_edge` with a missing endpoint returns `None` and
leaves the whole store (both dicts and both counters) unchanged. -/
theorem claim_C2_add_edge_missing_endpoint_noop (g : GraphData)
    (f t : Nat) (d c : Int) (pre post : String)
    (h : containsKey g.nodes_dict f = false ∨
         containsKey g.nodes_dict t = false) :
    (g.add_edge f t d c pre post).1 = Option.none ∧
    (g.add_edge f t d c pre post).2 = g := by
  have hcond : ¬ (containsKey g.nodes_dict f = true ∧
      containsKey g.nodes_dict t = true) := by
    rcases h with h | h <;> simp [h]
  simp only [GraphData.add_edge]
  rw [if_neg hcond]
  exact ⟨rfl, rfl⟩

/-- Witness for C2: adding an edge 1→999 on the worked example store
(999 nonexistent) is rejected and the state, in particular the edge
counter, is untouched. -/
theorem claim_C2_add_edge_missing_endpoint_noop_witness :
    containsKey exampleStore.nodes_dict 999 = false ∧
    (exampleStore.add_edge 1 999 5 5 "" "").1 = Option.none ∧
    (exampleStore.add_edge 1 999 5 5 "" "").2 = exampleStore :=
  ⟨by decide,
   (claim_C2_add_edge_missing_endpoint_noop exampleStore 1 999 5 5 "" ""
      (Or.inr (by decide))).1,
   (claim_C2_add_edge_missing_endpoint_noop exampleStore 1 999 5 5 "" ""
      (Or.inr (by decide))).2⟩

/-- Claim C4: `add_node` always succeeds, assigning `id = node_counter`
and then incrementing the counter; over any call history without
`clear_all`, the ids handed out by `add_node` from a fresh store are
exactly `1, 2, …, n` in order — strictly increasing and never reused,
also across deletions. -/
theorem claim_C4_node_ids_strictly_increasing :
    (∀ (g : GraphData) (name : String) (x y : Int),
        getD (g.add_node name x y).1 "id" = Value.int g.node_counter ∧
        (g.add_node name x y).2.node_counter = g.node_counter + 1) ∧
    (∀ ops : List Op, (∀ o ∈ ops, o ≠ Op.clearAll) →
        nodeIdTrace GraphData.init ops
          = (List.range' 1 (countAddNode ops)).map Int.ofNat) := by
  refine ⟨fun g name x y => ⟨rfl, rfl⟩, fun ops h => ?_⟩
  exact nodeIdTrace_eq ops GraphData.init h

/-- Witness for C4: a history with a deletion in between still assigns
ids 1 then 2. -/
theorem claim_C4_node_ids_strictly_increasing_witness :
    (∀ o ∈ [Op.addNode "A" 100 100, Op.deleteNode 1, Op.addNode "B" 5 5],
        o ≠ Op.clearAll) ∧
    nodeIdTrace GraphData.init
        [Op.addNode "A" 100 100, Op.deleteNode 1, Op.addNode "B" 5 5]
      = [1, 2] :=
  ⟨by decide,
   (claim_C4_node_ids_strictly_increasing.2
      [Op.addNode "A" 100 100, Op.deleteNode 1, Op.addNode "B" 5 5]
      (by decide)).trans (by decide)⟩

/-- Claim C5: `get_graph_stats` reports the node and edge counts, the
two counters as the next ids, and the sums of `cost` and `duration`
over all edges; on the spec's worked example it returns
`{total_nodes: 2, total_edges: 1, next_node_id: 3, next_edge_id: 2,
total_cost: 10, total_duration: 3}`. -/
theorem claim_C5_stats_contents (g : GraphData) :
    get_graph_stats g
      = { total_nodes := g.get_nodes_list.length,
          total_edges := g.get_edges_list.length,
          next_node_id := g.node_counter,
          next_edge_id := g.edge_counter,
          total_cost := specTotalCost g,
          total_duration := specTotalDuration g } ∧
    get_graph_stats exampleStore
      = { total_nodes := 2, total_edges := 1, next_node_id := 3,
          next_edge_id := 2, total_cost := 10, total_duration := 3 } := by
  constructor
  · simp only [get_graph_stats, specTotalCost, specTotalDuration,
      GraphData.get_nodes_list, GraphData.get_edges_list, List.map_map,
      List.length_map]
    rfl
  · rfl

/-- Claim C6: `clear_all` empties both dicts and resets both counters
to 1, so an `add_node` right after it hands out id 1. -/
theorem claim_C6_clear_resets (g : GraphData) (name : String) (x y : Int) :
    g.clear_all.nodes_dict = [] ∧ g.clear_all.edges_dict = [] ∧
    g.clear_all.node_counter = 1 ∧ g.clear_all.edge_counter = 1 ∧
    getD (g.clear_all.add_node name x y).1 "id" = Value.int 1 :=
  ⟨rfl, rfl, rfl, rfl, rfl⟩

/-- Claim C9: in every state reachable from a fresh store, every stored
node id is strictly below `node_counter` and every stored edge id is
strictly below `edge_counter`; hence the id the next `add_node` or
`add_edge` would assign (the counter itself) is never an existing key. -/
theorem claim_C9_counters_dominate_keys (ops : List Op) :
    (∀ p ∈ (runOps ops).nodes_dict, p.1 < (runOps ops).node_counter) ∧
    (∀ p ∈ (runOps ops).edges_dict, p.1 < (runOps ops).edge_counter) ∧
    containsKey (runOps ops).nodes_dict (runOps ops).node_counter = false ∧
    containsKey (runOps ops).edges_dict (runOps ops).edge_counter = false := by
  obtain ⟨hn, he⟩ := storeInv_runOps ops
  refine ⟨hn, he, ?_, ?_⟩
  · have hnone : lookupA (runOps ops).nodes_dict (runOps ops).node_counter
        = Option.none := by
      refine lookupA_eq_none_of_not_mem _ _ ?_
      intro hmem
      obtain ⟨p, hp, hfst⟩ := List.mem_map.mp hmem
      exact absurd (hfst ▸ hn p hp) (lt_irrefl _)
    simp [containsKey, hnone]
  · have hnone : lookupA (runOps ops).edges_dict (runOps ops).edge_counter
        = Option.none := by
      refine lookupA_eq_none_of_not_mem _ _ ?_
      intro hmem
      obtain ⟨p, hp, hfst⟩ := List.mem_map.mp hmem
      exact absurd (hfst ▸ he p hp) (lt_irrefl _)
    simp [containsKey, hnone]

/-- Claim C3: `weight` mirrors `duration`: every edge a successful
`add_edge` returns has `weight` equal to the `duration` argument, and a
successful `update_edge` whose update map carries `duration` returns an
edge whose `weight` equals that new duration — even when the update also
carries an explicit `weight`, `duration` wins. -/
theorem claim_C3_weight_mirrors_duration (g : GraphData) :
    (∀ (f t : Nat) (d c : Int) (pre post : String) (e : PyDict)
        (g' : GraphData),
        g.add_edge f t d c pre post = (some e, g') →
        getD e "weight" = Value.int d) ∧
    (∀ (id : Nat) (u e : PyDict) (g' : GraphData) (dv : Value),
        g.update_edge id u = (some e, g') →
        lookupA u "duration" = some dv →
        getD e "weight" = dv) := by
  constructor
  · intro f t d c pre post e g' hEq
    by_cases hc : containsKey g.nodes_dict f = true ∧
        containsKey g.nodes_dict t = true
    · simp only [GraphData.add_edge] at hEq
      rw [if_pos hc] at hEq
      injection hEq with h1 h2
      injection h1 with h1
      subst h1
      rfl
    · simp only [GraphData.add_edge] at hEq
      rw [if_neg hc] at hEq
      injection hEq with h1 h2
      cases h1
  · intro id u e g' dv hEq hdur
    cases hl : lookupA g.edges_dict id with
    | none =>
        simp only [GraphData.update_edge, hl] at hEq
        injection hEq with h1 h2
        cases h1
    | some r =>
        simp only [GraphData.update_edge, hl, hdur] at hEq
        have h1 : setA (dictUpdate r u) "weight" dv = e := by
          have := congrArg Prod.fst hEq
          simpa using this
        subst h1
        show (lookupA (setA (dictUpdate r u) "weight" dv) "weight").getD
            Value.none = dv
        rw [lookupA_setA, if_pos rfl]
        rfl

/-- Witness for C3: updating the worked example's edge with both
`duration := 7` and `weight := 99` yields `weight = 7`. -/
theorem claim_C3_weight_mirrors_duration_witness :
    lookupA [("weight", Value.int 99), ("duration", Value.int 7)] "duration"
        = some (Value.int 7) ∧
    getD ((exampleStore.update_edge 1
        [("weight", Value.int 99), ("duration", Value.int 7)]).1.getD [])
        "weight" = Value.int 7 :=
  ⟨by decide,
   (claim_C3_weight_mirrors_duration exampleStore).2 1
     [("weight", Value.int 99), ("duration", Value.int 7)]
     ((exampleStore.update_edge 1
         [("weight", Value.int 99), ("duration", Value.int 7)]).1.getD [])
     (exampleStore.update_edge 1
         [("weight", Value.int 99), ("duration", Value.int 7)]).2
     (Value.int 7) (by decide) (by decide)⟩

/-- Claim C8: `delete_node` and `delete_edge` return `True` exactly when
the id was a key at call time; on `False` the whole store is unchanged;
a successful `delete_edge` removes exactly that edge and touches no
node, no other edge and neither counter. -/
theorem claim_C8_delete_true_iff_existed (g : GraphData) (id : Nat) :
    (g.delete_node id).1 = containsKey g.nodes_dict id ∧
    (g.delete_edge id).1 = containsKey g.edges_dict id ∧
    (containsKey g.nodes_dict id = false → (g.delete_node id).2 = g) ∧
    (containsKey g.edges_dict id = false → (g.delete_edge id).2 = g) ∧
    (containsKey g.edges_dict id = true →
       (g.delete_edge id).2.edges_dict = eraseA g.edges_dict id ∧
       (∀ j, j ≠ id →
          lookupA (g.delete_edge id).2.edges_dict j = lookupA g.edges_dict j) ∧
       (NoDupKeys g.edges_dict →
          lookupA (g.delete_edge id).2.edges_dict id = Option.none) ∧
       (g.delete_edge id).2.nodes_dict = g.nodes_dict ∧
       (g.delete_edge id).2.node_counter = g.node_counter ∧
       (g.delete_edge id).2.edge_counter = g.edge_counter) := by
  refine ⟨?_, ?_, ?_, ?_, ?_⟩
  · by_cases h : containsKey g.nodes_dict id = true
    · simp [GraphData.delete_node, h]
    · simp only [Bool.not_eq_true] at h
      simp [GraphData.delete_node, h]
  · by_cases h : containsKey g.edges_dict id = true
    · simp [GraphData.delete_edge, h]
    · simp only [Bool.not_eq_true] at h
      simp [GraphData.delete_edge, h]
  · intro h
    simp [GraphData.delete_node, h]
  · intro h
    simp [GraphData.delete_edge, h]
  · intro h
    have hd : g.delete_edge id
        = (true, { g with edges_dict := eraseA g.edges_dict id }) := by
      simp only [GraphData.delete_edge]
      rw [if_pos h]
    refine ⟨by rw [hd], fun j hj => ?_, fun hnd => ?_,
      by rw [hd], by rw [hd], by rw [hd]⟩
    · rw [hd]
      exact lookupA_eraseA_ne _ _ _ hj
    · rw [hd]
      exact lookupA_eraseA_self _ _ hnd

/-- Witness for C8 on the worked example store: deleting absent edge 7
is a no-op returning `False`; deleting edge 1 returns `True` and leaves
the edge dict empty. -/
theorem claim_C8_delete_true_iff_existed_witness :
    containsKey exampleStore.edges_dict 7 = false ∧
    (exampleStore.delete_edge 7).2 = exampleStore ∧
    containsKey exampleStore.edges_dict 1 = true ∧
    (exampleStore.delete_edge 1).2.edges_dict = eraseA exampleStore.edges_dict 1 :=
  ⟨by decide,
   (claim_C8_delete_true_iff_existed exampleStore 7).2.2.2.1 (by decide),
   by decide,
   ((claim_C8_delete_true_iff_existed exampleStore 1).2.2.2.2 (by decide)).1⟩

/-- Claim C7: `update_node` returns `None` and changes nothing when the
id is absent; when present it merges exactly the supplied fields into
the record (supplied keys, known or unknown, stored verbatim; every
other key keeps its previous value) and touches no other node, no edge
and neither counter.  `update_edge` has the same merge semantics except
for the `weight` recomputation when `duration` is supplied. -/
theorem claim_C7_partial_update_merges (g : GraphData) (id : Nat)
    (u : PyDict) (hnd : NoDupKeys u) :
    (containsKey g.nodes_dict id = false →
        g.update_node id u = (Option.none, g)) ∧
    (∀ r, lookupA g.nodes_dict id = some r →
        (g.update_node id u).1 = some (dictUpdate r u) ∧
        (∀ k v, lookupA u k = some v → lookupA (dictUpdate r u) k = some v) ∧
        (∀ k, lookupA u k = Option.none →
            lookupA (dictUpdate r u) k = lookupA r k) ∧
        (g.update_node id u).2.nodes_dict
          = setA g.nodes_dict id (dictUpdate r u) ∧
        (∀ j, j ≠ id → lookupA (g.update_node id u).2.nodes_dict j
            = lookupA g.nodes_dict j) ∧
        (g.update_node id u).2.edges_dict = g.edges_dict ∧
        (g.update_node id u).2.node_counter = g.node_counter ∧
        (g.update_node id u).2.edge_counter = g.edge_counter) ∧
    (containsKey g.edges_dict id = false →
        g.update_edge id u = (Option.none, g)) ∧
    (∀ r, lookupA g.edges_dict id = some r →
        (g.update_edge id u).1.isSome = true ∧
        (∀ e, (g.update_edge id u).1 = some e →
          (∀ k v, k ≠ "weight" → lookupA u k = some v → lookupA e k = some v) ∧
          (∀ k, k ≠ "weight" → lookupA u k = Option.none →
              lookupA e k = lookupA r k) ∧
          (lookupA u "duration" = Option.none →
              (∀ v, lookupA u "weight" = some v →
                  lookupA e "weight" = some v) ∧
              (lookupA u "weight" = Option.none →
                  lookupA e "weight" = lookupA r "weight")) ∧
          (g.update_edge id u).2.edges_dict = setA g.edges_dict id e ∧
          (∀ j, j ≠ id → lookupA (g.update_edge id u).2.edges_dict j
              = lookupA g.edges_dict j) ∧
          (g.update_edge id u).2.nodes_dict = g.nodes_dict ∧
          (g.update_edge id u).2.node_counter = g.node_counter ∧
          (g.update_edge id u).2.edge_counter = g.edge_counter)) := by
  refine ⟨?_, ?_, ?_, ?_⟩
  · intro h
    cases hl : lookupA g.nodes_dict id with
    | none => simp [GraphData.update_node, hl]
    | some r => simp [containsKey, hl] at h
  · intro r hr
    have hu : g.update_node id u
        = (some (dictUpdate r u),
           { g with nodes_dict := setA g.nodes_dict id (dictUpdate r u) }) := by
      simp [GraphData.update_node, hr]
    refine ⟨by rw [hu], fun k v hk => lookupA_dictUpdate_of_mem r u k v hnd hk,
      fun k hk => lookupA_dictUpdate_of_not_mem r u k hk,
      by rw [hu], fun j hj => ?_, by rw [hu], by rw [hu], by rw [hu]⟩
    rw [hu]
    show lookupA (setA g.nodes_dict id (dictUpdate r u)) j
        = lookupA g.nodes_dict j
    rw [lookupA_setA, if_neg (fun hh => hj hh.symm)]
  · intro h
    cases hl : lookupA g.edges_dict id with
    | none => simp [GraphData.update_edge, hl]
    | some r => simp [containsKey, hl] at h
  · intro r hr
    cases hdur : lookupA u "duration" with
    | some dv =>
        have hu : g.update_edge id u
            = (some (setA (dictUpdate r u) "weight" dv),
               { g with
                  edges_dict :=
                    setA g.edges_dict id (setA (dictUpdate r u) "weight" dv) }) := by
          simp [GraphData.update_edge, hr, hdur]
        refine ⟨by rw [hu]; rfl, fun e hE => ?_⟩
        have he : e = setA (dictUpdate r u) "weight" dv := by
          rw [hu] at hE
          exact (Option.some.injEq .. ▸ hE).symm
        subst he
        refine ⟨fun k v hkw hk => ?_, fun k hkw hk => ?_, fun hcon => ?_,
          by rw [hu], fun j hj => ?_, by rw [hu], by rw [hu], by rw [hu]⟩
        · rw [lookupA_setA, if_neg (fun hh => hkw hh.symm)]
          exact lookupA_dictUpdate_of_mem r u k v hnd hk
        · rw [lookupA_setA, if_neg (fun hh => hkw hh.symm)]
          exact lookupA_dictUpdate_of_not_mem r u k hk
        · cases hcon
        · rw [hu]
          show lookupA (setA g.edges_dict id
              (setA (dictUpdate r u) "weight" dv)) j = lookupA g.edges_dict j
          rw [lookupA_setA, if_neg (fun hh => hj hh.symm)]
    | none =>
        have hu : g.update_edge id u
            = (some (dictUpdate r u),
               { g with edges_dict := setA g.edges_dict id (dictUpdate r u) }) := by
          simp [GraphData.update_edge, hr, hdur]
        refine ⟨by rw [hu]; rfl, fun e hE => ?_⟩
        have he : e = dictUpdate r u := by
          rw [hu] at hE
          exact (Option.some.injEq .. ▸ hE).symm
        subst he
        refine ⟨fun k v _ hk => lookupA_dictUpdate_of_mem r u k v hnd hk,
          fun k _ hk => lookupA_dictUpdate_of_not_mem r u k hk,
          fun _ => ⟨fun v hv => lookupA_dictUpdate_of_mem r u "weight" v hnd hv,
            fun hw => lookupA_dictUpdate_of_not_mem r u "weight" hw⟩,
          by rw [hu], fun j hj => ?_, by rw [hu], by rw [hu], by rw [hu]⟩
        rw [hu]
        show lookupA (setA g.edges_dict id (dictUpdate r u)) j
            = lookupA g.edges_dict j
        rw [lookupA_setA, if_neg (fun hh => hj hh.symm)]

/-- Witness for C7: renaming node 1 of the worked example store (with an
unknown extra field) returns the merged record. -/
theorem claim_C7_partial_update_merges_witness :
    NoDupKeys [("name", Value.str "Z"), ("color", Value.str "red")] ∧
    lookupA exampleStore.nodes_dict 1 = some nodeRecA ∧
    (exampleStore.update_node 1
        [("name", Value.str "Z"), ("color", Value.str "red")]).1
      = some (dictUpdate nodeRecA
          [("name", Value.str "Z"), ("color", Value.str "red")]) :=
  ⟨by decide, by decide,
   ((claim_C7_partial_update_merges exampleStore 1
       [("name", Value.str "Z"), ("color", Value.str "red")]
       (by decide)).2.1 nodeRecA (by decide)).1⟩

theorem lookupA_eq_none_of_containsKey_false {α β : Type} [DecidableEq α]
    (l : List (α × β)) (k : α) (h : containsKey l k = false) :
    lookupA l k = Option.none := by
  cases hl : lookupA l k with
  | none => rfl
  | some v =>
      rw [containsKey, hl] at h
      cases h

/-- Claim C10: an update whose map rewrites the `id` field changes only
the field, never the dict key: the record stays stored under its old
key `k`, reading key `k` returns a record whose `id` field is the new
`j`, other keys are untouched, and reading `j` still returns `None`
when nothing was stored there.  Likewise for edges. -/
theorem claim_C10_update_id_field_does_not_rekey (g : GraphData)
    (k j : Nat) (u : PyDict)
    (hid : lookupA u "id" = some (Value.int j)) (hnd : NoDupKeys u) :
    (∀ r, lookupA g.nodes_dict k = some r →
        (g.update_node k u).1 = some (dictUpdate r u) ∧
        getD (dictUpdate r u) "id" = Value.int j ∧
        (g.update_node k u).2.get_node_by_id k = some (dictUpdate r u) ∧
        (∀ m, m ≠ k →
            (g.update_node k u).2.get_node_by_id m = g.get_node_by_id m) ∧
        (j ≠ k → containsKey g.nodes_dict j = false →
            (g.update_node k u).2.get_node_by_id j = Option.none)) ∧
    (∀ r, lookupA g.edges_dict k = some r →
        ∀ e, (g.update_edge k u).1 = some e →
        getD e "id" = Value.int j ∧
        (g.update_edge k u).2.get_edge_by_id k = some e ∧
        (∀ m, m ≠ k →
            (g.update_edge k u).2.get_edge_by_id m = g.get_edge_by_id m) ∧
        (j ≠ k → containsKey g.edges_dict j = false →
            (g.update_edge k u).2.get_edge_by_id j = Option.none)) := by
  constructor
  · intro r hr
    have hu : g.update_node k u
        = (some (dictUpdate r u),
           { g with nodes_dict := setA g.nodes_dict k (dictUpdate r u) }) := by
      simp [GraphData.update_node, hr]
    refine ⟨by rw [hu], ?_, ?_, fun m hm => ?_, fun hjk hjfree => ?_⟩
    · show (lookupA (dictUpdate r u) "id").getD Value.none = Value.int j
      rw [lookupA_dictUpdate_of_mem r u "id" _ hnd hid]
      rfl
    · rw [hu]
      show lookupA (setA g.nodes_dict k (dictUpdate r u)) k
          = some (dictUpdate r u)
      rw [lookupA_setA, if_pos rfl]
    · rw [hu]
      show lookupA (setA g.nodes_dict k (dictUpdate r u)) m
          = lookupA g.nodes_dict m
      rw [lookupA_setA, if_neg (fun hh => hm hh.symm)]
    · rw [hu]
      show lookupA (setA g.nodes_dict k (dictUpdate r u)) j = Option.none
      rw [lookupA_setA, if_neg (fun hh => hjk hh.symm)]
      exact lookupA_eq_none_of_containsKey_false _ _ hjfree
  · intro r hr e hE
    cases hdur : lookupA u "duration" with
    | some dv =>
        have hu : g.update_edge k u
            = (some (setA (dictUpdate r u) "weight" dv),
               { g with
                  edges_dict :=
                    setA g.edges_dict k (setA (dictUpdate r u) "weight" dv) }) := by
          simp [GraphData.update_edge, hr, hdur]
        have he : e = setA (dictUpdate r u) "weight" dv := by
          rw [hu] at hE
          exact (Option.some.injEq .. ▸ hE).symm
        subst he
        refine ⟨?_, ?_, fun m hm => ?_, fun hjk hjfree => ?_⟩
        · show (lookupA (setA (dictUpdate r u) "weight" dv) "id").getD
              Value.none = Value.int j
          rw [lookupA_setA, if_neg (by decide),
            lookupA_dictUpdate_of_mem r u "id" _ hnd hid]
          rfl
        · rw [hu]
          show lookupA (setA g.edges_dict k
              (setA (dictUpdate r u) "weight" dv)) k = _
          rw [lookupA_setA, if_pos rfl]
        · rw [hu]
          show lookupA (setA g.edges_dict k
              (setA (dictUpdate r u) "weight" dv)) m = lookupA g.edges_dict m
          rw [lookupA_setA, if_neg (fun hh => hm hh.symm)]
        · rw [hu]
          show lookupA (setA g.edges_dict k
              (setA (dictUpdate r u) "weight" dv)) j = Option.none
          rw [lookupA_setA, if_neg (fun hh => hjk hh.symm)]
          exact lookupA_eq_none_of_containsKey_false _ _ hjfree
    | none =>
        have hu : g.update_edge k u
            = (some (dictUpdate r u),
               { g with edges_dict := setA g.edges_dict k (dictUpdate r u) }) := by
          simp [GraphData.update_edge, hr, hdur]
        have he : e = dictUpdate r u := by
          rw [hu] at hE
          exact (Option.some.injEq .. ▸ hE).symm
        subst he
        refine ⟨?_, ?_, fun m hm => ?_, fun hjk hjfree => ?_⟩
        · show (lookupA (dictUpdate r u) "id").getD Value.none = Value.int j
          rw [lookupA_dictUpdate_of_mem r u "id" _ hnd hid]
          rfl
        · rw [hu]
          show lookupA (setA g.edges_dict k (dictUpdate r u)) k = _
          rw [lookupA_setA, if_pos rfl]
        · rw [hu]
          show lookupA (setA g.edges_dict k (dictUpdate r u)) m
              = lookupA g.edges_dict m
          rw [lookupA_setA, if_neg (fun hh => hm hh.symm)]
        · rw [hu]
          show lookupA (setA g.edges_dict k (dictUpdate r u)) j = Option.none
          rw [lookupA_setA, if_neg (fun hh => hjk hh.symm)]
          exact lookupA_eq_none_of_containsKey_false _ _ hjfree

/-- Witness for C10: rewriting node 1's `id` field to 500 keeps the
record under key 1 and key 500 stays absent. -/
theorem claim_C10_update_id_field_does_not_rekey_witness :
    lookupA [("id", Value.int 500)] "id" = some (Value.int 500) ∧
    NoDupKeys [("id", Value.int 500)] ∧
    lookupA exampleStore.nodes_dict 1 = some nodeRecA ∧
    getD (dictUpdate nodeRecA [("id", Value.int 500)]) "id"
      = Value.int 500 :=
  ⟨by decide, by decide, by decide,
   ((claim_C10_update_id_field_does_not_rekey exampleStore 1 500
       [("id", Value.int 500)] (by decide) (by decide)).1
     nodeRecA (by decide)).2.1⟩

/-- Witness for C5: the worked example's stats, read off the theorem. -/
theorem claim_C5_stats_contents_witness :
    get_graph_stats exampleStore
      = { total_nodes := 2, total_edges := 1, next_node_id := 3,
          next_edge_id := 2, total_cost := 10, total_duration := 3 } :=
  (claim_C5_stats_contents exampleStore).2

/-- Witness for C6: clearing the worked example store and adding a node
hands out id 1. -/
theorem claim_C6_clear_resets_witness :
    exampleStore.clear_all.nodes_dict = [] ∧
    getD (exampleStore.clear_all.add_node "N" 1 2).1 "id" = Value.int 1 :=
  ⟨(claim_C6_clear_resets exampleStore "N" 1 2).1,
   (claim_C6_clear_resets exampleStore "N" 1 2).2.2.2.2⟩

/-- Witness for C9: after a concrete history with a self-loop edge, the
counters name fresh ids. -/
theorem claim_C9_counters_dominate_keys_witness :
    containsKey
        (runOps [Op.addNode "A" 100 100, Op.addEdge 1 1 0 0 "" ""]).nodes_dict
        (runOps [Op.addNode "A" 100 100, Op.addEdge 1 1 0 0 "" ""]).node_counter
      = false ∧
    containsKey
        (runOps [Op.addNode "A" 100 100, Op.addEdge 1 1 0 0 "" ""]).edges_dict
        (runOps [Op.addNode "A" 100 100, Op.addEdge 1 1 0 0 "" ""]).edge_counter
      = false :=
  ⟨(claim_C9_counters_dominate_keys
      [Op.addNode "A" 100 100, Op.addEdge 1 1 0 0 "" ""]).2.2.1,
   (claim_C9_counters_dominate_keys
      [Op.addNode "A" 100 100, Op.addEdge 1 1 0 0 "" ""]).2.2.2⟩
